import Mathlib

/-!
Verification of the build-time probe of the openshmem-sys repository
(src/build.rs).  The probe runs the OSHMEM compiler wrapper, splits its
reported command line into shell words, buckets the tokens by flag
marker, strips one layer of surrounding quotes from path tokens, and
bundles the result into a `Library` record that feeds the binding
generator.  All definitions below are translated from src/build.rs and
from the shell-words lexer it calls; IO effects (spawning the wrapper)
are factored out by passing the captured stdout as a plain string, and
panics (`unwrap` on a shell parse error) are modelled as `none`.
-/

/-- State of the POSIX shell word splitter: models the `State` enum of
the shell-words crate whose `split` function build.rs calls in
`collect_args_with_prefix`. -/
inductive SplitState
  | delimiter
  | backslash
  | unquoted
  | unquotedBackslash
  | singleQuoted
  | doubleQuoted
  | doubleQuotedBackslash
  | comment
deriving DecidableEq

/-- The backtick character (code point 96), one of the three quote
characters recognized by `unquote` in build.rs. -/
def backquote : Char := Char.ofNat 96

/-- The loop of shell-words `split`: one transition per input
character, carrying the current word and the words emitted so far.
`none` models the crate's `ParseError` on unbalanced quoting. -/
def splitLoop : SplitState → List Char → List Char → List (List Char) →
    Option (List (List Char))
  | .delimiter, [], _, acc => some acc
  | .delimiter, c :: cs, w, acc =>
    if c = '\'' then splitLoop .singleQuoted cs w acc
    else if c = '"' then splitLoop .doubleQuoted cs w acc
    else if c = '\\' then splitLoop .backslash cs w acc
    else if c = ' ' ∨ c = '\t' ∨ c = '\n' then splitLoop .delimiter cs w acc
    else if c = '#' then splitLoop .comment cs w acc
    else splitLoop .unquoted cs (w ++ [c]) acc
  | .backslash, [], w, acc => some (acc ++ [w ++ ['\\']])
  | .backslash, c :: cs, w, acc =>
    if c = '\n' then splitLoop .delimiter cs w acc
    else splitLoop .unquoted cs (w ++ [c]) acc
  | .unquoted, [], w, acc => some (acc ++ [w])
  | .unquoted, c :: cs, w, acc =>
    if c = '\'' then splitLoop .singleQuoted cs w acc
    else if c = '"' then splitLoop .doubleQuoted cs w acc
    else if c = '\\' then splitLoop .unquotedBackslash cs w acc
    else if c = ' ' ∨ c = '\t' ∨ c = '\n' then
      splitLoop .delimiter cs [] (acc ++ [w])
    else splitLoop .unquoted cs (w ++ [c]) acc
  | .unquotedBackslash, [], w, acc => some (acc ++ [w ++ ['\\']])
  | .unquotedBackslash, c :: cs, w, acc =>
    if c = '\n' then splitLoop .unquoted cs w acc
    else splitLoop .unquoted cs (w ++ [c]) acc
  | .singleQuoted, [], _, _ => none
  | .singleQuoted, c :: cs, w, acc =>
    if c = '\'' then splitLoop .unquoted cs w acc
    else splitLoop .singleQuoted cs (w ++ [c]) acc
  | .doubleQuoted, [], _, _ => none
  | .doubleQuoted, c :: cs, w, acc =>
    if c = '"' then splitLoop .unquoted cs w acc
    else if c = '\\' then splitLoop .doubleQuotedBackslash cs w acc
    else splitLoop .doubleQuoted cs (w ++ [c]) acc
  | .doubleQuotedBackslash, [], _, _ => none
  | .doubleQuotedBackslash, c :: cs, w, acc =>
    if c = '\n' then splitLoop .doubleQuoted cs w acc
    else if c = '$' ∨ c = backquote ∨ c = '"' ∨ c = '\\' then
      splitLoop .doubleQuoted cs (w ++ [c]) acc
    else splitLoop .doubleQuoted cs (w ++ ['\\', c]) acc
  | .comment, [], _, acc => some acc
  | .comment, c :: cs, w, acc =>
    if c = '\n' then splitLoop .delimiter cs w acc
    else splitLoop .comment cs w acc

/-- Shell word splitting as build.rs uses it: POSIX quoting and
escaping semantics; `none` on unbalanced quoting. -/
def shellSplit (s : String) : Option (List String) :=
  (splitLoop .delimiter s.data [] []).map (List.map String.mk)

/-- Rust `str::starts_with` for a string pattern, on characters. -/
def starts_with (s p : String) : Bool :=
  p.data.isPrefixOf s.data

/-- Character-level specialization of the byte slice `arg[2..]` of
`collect_args_with_prefix`, exact for tokens whose first two
characters are single-byte — in particular for every token matching
the probe's two-character ASCII markers `-l`, `-L`, `-I`
(`sliceFromTwo_ascii`).  The byte-accurate model of the slice,
including its panic, is `sliceFromTwo`. -/
def dropTwo (s : String) : String :=
  String.mk (s.data.drop 2)

/-- The per-token body of the `filter_map` in
`collect_args_with_prefix`: keep `arg[2..]` of a word starting with
the marker `p`, drop every other word. -/
def markerEntry (p arg : String) : Option String :=
  if starts_with arg p then some (dropTwo arg) else none

/-- Embeds `collect_args_with_prefix` from build.rs: split the command
line into shell words and keep `arg[2..]` of every word starting with
the marker `p`.  The source calls `.unwrap()` on the split result, so
a shell parse error aborts the build; that abort is modelled as
`none`. -/
def collectArgsWith (cmd p : String) : Option (List String) :=
  (shellSplit cmd).map fun ts => ts.filterMap (markerEntry p)

/-- Embeds the `UnquoteError` struct of build.rs: records the opening
quote character that was never closed. -/
structure UnquoteError where
  quote : Char
deriving DecidableEq

/-- Core of `unquote` on the character list of the token. -/
def unquoteCore : List Char → Except UnquoteError (List Char)
  | [] => Except.ok []
  | [c] => Except.ok [c]
  | q :: c :: cs =>
    if q ≠ '"' ∧ q ≠ '\'' ∧ q ≠ backquote then Except.ok (q :: c :: cs)
    else if List.getLast (c :: cs) (List.cons_ne_nil c cs) ≠ q then
      Except.error (UnquoteError.mk q)
    else Except.ok ((c :: cs).dropLast)

/-- Embeds `unquote` from build.rs: tokens shorter than two characters
and tokens not opening with a recognized quote character pass through
unchanged; a matching closing character strips one layer; a mismatch
is an `UnquoteError` naming the opening quote.  The byte slice
`s[1..s.len()-1]` coincides with dropping the first and last
character because the three quote characters are single-byte. -/
def unquote (s : String) : Except UnquoteError String :=
  (unquoteCore s.data).map String.mk

/-- Embeds the `Library` struct of build.rs; `PathBuf` path entries
are kept as the strings they are built from. -/
structure Library where
  oshcc : Option String
  libs : List String
  lib_paths : List String
  include_paths : List String
  version : String
deriving DecidableEq

/-- The library-link marker. -/
def flagLib : String := "-l"

/-- The library-search-path marker. -/
def flagLibDir : String := "-L"

/-- The header-search-path marker. -/
def flagInclude : String := "-I"

/-- The version sentinel of the wrapper probe. -/
def versionUnknown : String := "unknown"

/-- Embeds `probe_via_oshcc` from build.rs, with the captured stdout
of the compiler wrapper passed in as `output`.  The three
`collect_args_with_prefix` calls share one shell split; the path
buckets drop tokens whose unquoting fails (`.ok()` inside
`filter_map`). -/
def probe_via_oshcc (oshccArg output : String) : Option Library :=
  match collectArgsWith output flagLib, collectArgsWith output flagLibDir,
      collectArgsWith output flagInclude with
  | some libs, some libdirsRaw, some headerdirsRaw =>
    some (Library.mk (some oshccArg) libs
      (libdirsRaw.filterMap fun x => (unquote x).toOption)
      (headerdirsRaw.filterMap fun x => (unquote x).toOption)
      versionUnknown)
  | _, _, _ => none

/-- The contribution of one shell token to a path list of the probe:
marker stripped, then unquoted, with unquote failures dropped. -/
def pathEntry (p t : String) : Option String :=
  (markerEntry p t).bind fun x => (unquote x).toOption

/-- The wrapper executable name used by `main`. -/
def oshccName : String := "oshcc"

/-- The wrapper output line of the plain probe example. -/
def line3 : String := "-lfoo -L/usr/lib -I/usr/include"

/-- The wrapper output line with a quoted path. -/
def lineQuoted : String := "-L\"/usr/lib foo\""

/-- A wrapper output line whose single token carries an unterminated
inner quote: the characters are `-L\"abc`, which shell-splits to the
token `-L"abc`. -/
def lineBadQuote : String := "-L\\\"abc"

/-- The shell token produced by `lineBadQuote`. -/
def tokBad : String := "-L\"abc"

/-- The token of `line3` carrying the library name. -/
def tokLfoo : String := "-lfoo"

/-- The token of `line3` carrying the library search path. -/
def tokLdir : String := "-L/usr/lib"

/-- The token of `line3` carrying the header search path. -/
def tokIdir : String := "-I/usr/include"

/-- The library name extracted from `line3`. -/
def fooStr : String := "foo"

/-- The library search path extracted from `line3`. -/
def usrLib : String := "/usr/lib"

/-- The header search path extracted from `line3`. -/
def usrInclude : String := "/usr/include"

/-- The quoted path of `lineQuoted` with its quotes stripped by the
shell split. -/
def usrLibFoo : String := "/usr/lib foo"

/-- A token surrounded by matching double quotes. -/
def quotedAbc : String := "\"abc\""

/-- The body of `quotedAbc`. -/
def abcStr : String := "abc"

/-- A token opening a double quote that is never closed. -/
def quoteAbcOpen : String := "\"abc"

/-- The empty string. -/
def emptyStr : String := ""

/-- Byte-accurate model of the Rust slice `s[2..]` on the character
list of `s`: `none` models the panic when the string is shorter than
two bytes or byte offset 2 falls inside a character.  Byte offset 2
is a character boundary exactly when the first character occupies two
bytes, or the first two characters occupy one byte each. -/
def sliceFromTwoCore : List Char → Option (List Char)
  | [] => none
  | [c] => if c.utf8Size = 2 then some [] else none
  | c :: d :: ds =>
    if c.utf8Size = 1 then
      (if d.utf8Size = 1 then some ds else none)
    else if c.utf8Size = 2 then some (d :: ds)
    else none

/-- Byte-accurate model of the Rust slice `arg[2..]` in
`collect_args_with_prefix`; `none` models the slicing panic. -/
def sliceFromTwo (s : String) : Option String :=
  (sliceFromTwoCore s.data).map String.mk

/-- Byte-accurate model of the `filter_map` loop of
`collect_args_with_prefix` over the split words: emits the two-byte
slice of each word starting with the marker, skips the rest, and
propagates the slicing panic. -/
def collectBytesLoop (p : String) : List String → Option (List String)
  | [] => some []
  | t :: ts =>
    if starts_with t p then
      (sliceFromTwo t).bind fun r =>
        (collectBytesLoop p ts).map fun rs => r :: rs
    else collectBytesLoop p ts

/-- Byte-accurate embedding of `collect_args_with_prefix` from
build.rs for arbitrary marker arguments: `none` models both the
`unwrap` panic on a shell parse error and the byte-slice panic of
`arg[2..]` on a matching token shorter than two bytes or with a
multi-byte character straddling byte offset 2. -/
def collect_args_bytes (cmd p : String) : Option (List String) :=
  (shellSplit cmd).bind (collectBytesLoop p)

/-- A token whose first character occupies two bytes in UTF-8. -/
def accentedToken : String := "éx"

/-- A one-character, two-byte marker argument. -/
def accentMarker : String := "é"

/-- The byte-slice remainder of `accentedToken`. -/
def xStr : String := "x"

/-- A one-byte token equal to a one-byte marker argument. -/
def aTok : String := "a"

/-- C3: on the line `-lfoo -L/usr/lib -I/usr/include` the probe yields
exactly the library names [foo], the library search paths [/usr/lib]
and the header search paths [/usr/include]. -/
theorem C3_probe_plain_line :
    probe_via_oshcc oshccName line3 =
      some (Library.mk (some oshccName) [fooStr] [usrLib] [usrInclude]
        versionUnknown) := by decide

/-- C4: on the line `-L"/usr/lib foo"` the probe yields the single
library search path `/usr/lib foo`: the internal space is preserved
inside one token and the surrounding quotes are stripped. -/
theorem C4_probe_quoted_path :
    probe_via_oshcc oshccName lineQuoted =
      some (Library.mk (some oshccName) [] [usrLibFoo] [] versionUnknown) := by
  decide

/-- C1, counterexample: on the line `-L\"abc`, whose only token is
`-L"abc` with an unterminated inner quote, the probe as a whole
succeeds rather than failing, and the offending token is silently
omitted from the library search paths (which come out empty). -/
theorem C1_probe_counterexample :
    probe_via_oshcc oshccName lineBadQuote =
      some (Library.mk (some oshccName) [] [] [] versionUnknown) := by decide

/-- Helper: on a token of length at least two opening with a
recognized quote character that matches the closing character,
`unquoteCore` strips the two quote characters. -/
theorem unquoteCore_quoted (q c : Char) (cs : List Char)
    (hq : q = '"' ∨ q = '\'' ∨ q = backquote)
    (hlast : List.getLast (c :: cs) (List.cons_ne_nil c cs) = q) :
    unquoteCore (q :: c :: cs) = Except.ok ((c :: cs).dropLast) := by
  have h1 : ¬(q ≠ '"' ∧ q ≠ '\'' ∧ q ≠ backquote) := by
    rcases hq with h | h | h
    · exact fun hc => hc.1 h
    · exact fun hc => hc.2.1 h
    · exact fun hc => hc.2.2 h
  have h2 : ¬(List.getLast (c :: cs) (List.cons_ne_nil c cs) ≠ q) :=
    fun hc => hc hlast
  show (if q ≠ '"' ∧ q ≠ '\'' ∧ q ≠ backquote then Except.ok (q :: c :: cs)
      else if List.getLast (c :: cs) (List.cons_ne_nil c cs) ≠ q then
        Except.error (UnquoteError.mk q)
      else Except.ok ((c :: cs).dropLast)) = Except.ok ((c :: cs).dropLast)
  rw [if_neg h1, if_neg h2]

/-- Helper: on a token of length at least two opening with a
recognized quote character whose closing character does not match,
`unquoteCore` reports the opening quote as unterminated. -/
theorem unquoteCore_unterminated (q c : Char) (cs : List Char)
    (hq : q = '"' ∨ q = '\'' ∨ q = backquote)
    (hlast : List.getLast (c :: cs) (List.cons_ne_nil c cs) ≠ q) :
    unquoteCore (q :: c :: cs) = Except.error (UnquoteError.mk q) := by
  have h1 : ¬(q ≠ '"' ∧ q ≠ '\'' ∧ q ≠ backquote) := by
    rcases hq with h | h | h
    · exact fun hc => hc.1 h
    · exact fun hc => hc.2.1 h
    · exact fun hc => hc.2.2 h
  show (if q ≠ '"' ∧ q ≠ '\'' ∧ q ≠ backquote then Except.ok (q :: c :: cs)
      else if List.getLast (c :: cs) (List.cons_ne_nil c cs) ≠ q then
        Except.error (UnquoteError.mk q)
      else Except.ok ((c :: cs).dropLast)) = Except.error (UnquoteError.mk q)
  rw [if_neg h1, if_pos hlast]

/-- Helper: building a path bucket by first stripping the marker and
then dropping unquote failures is one `filterMap` with `pathEntry`. -/
theorem pathBucket_eq (p : String) (ts : List String) :
    List.filterMap (fun x => (unquote x).toOption)
        (ts.filterMap (markerEntry p)) =
      ts.filterMap (pathEntry p) := by
  rw [List.filterMap_filterMap]
  rfl

/-- Helper: when the shell split of the wrapper output succeeds, the
probe returns exactly the record whose three lists are the sequential
filterMaps of the token list. -/
theorem probe_characterization (o out : String) (ts : List String)
    (h : shellSplit out = some ts) :
    probe_via_oshcc o out =
      some (Library.mk (some o) (ts.filterMap (markerEntry flagLib))
        (ts.filterMap (pathEntry flagLibDir))
        (ts.filterMap (pathEntry flagInclude)) versionUnknown) := by
  have hc : ∀ p, collectArgsWith out p = some (ts.filterMap (markerEntry p)) := by
    intro p
    unfold collectArgsWith
    rw [h]
    rfl
  unfold probe_via_oshcc
  rw [hc flagLib, hc flagLibDir, hc flagInclude]
  show some (Library.mk (some o) (ts.filterMap (markerEntry flagLib))
      (List.filterMap (fun x => (unquote x).toOption)
        (ts.filterMap (markerEntry flagLibDir)))
      (List.filterMap (fun x => (unquote x).toOption)
        (ts.filterMap (markerEntry flagInclude)))
      versionUnknown) =
    some (Library.mk (some o) (ts.filterMap (markerEntry flagLib))
      (ts.filterMap (pathEntry flagLibDir))
      (ts.filterMap (pathEntry flagInclude)) versionUnknown)
  rw [pathBucket_eq flagLibDir ts, pathBucket_eq flagInclude ts]

/-- C5: for every token of length at least two whose first and last
characters are the same recognized quote character, unquoting succeeds
and returns the token with exactly one leading and one trailing
character removed. -/
theorem C5_unquote_strips_matching_quotes (s : String) (q : Char)
    (hq : q = '"' ∨ q = '\'' ∨ q = backquote)
    (hlen : 2 ≤ s.data.length)
    (hfst : s.data.head? = some q)
    (hlst : s.data.getLast? = some q) :
    unquote s = Except.ok (String.mk s.data.tail.dropLast) := by
  unfold unquote
  match hd : s.data with
  | [] => rw [hd] at hlen; simp at hlen
  | [c] => rw [hd] at hlen; simp at hlen
  | c0 :: c :: cs =>
    rw [hd] at hfst hlst
    have hc0 : c0 = q := by simpa using hfst
    subst hc0
    have hlast : List.getLast (c :: cs) (List.cons_ne_nil c cs) = c0 := by
      rw [List.getLast?_cons_cons,
        List.getLast?_eq_getLast (c :: cs) (List.cons_ne_nil c cs)] at hlst
      exact Option.some.inj hlst
    rw [unquoteCore_quoted c0 c cs hq hlast]
    rfl

/-- C5 witness: unquoting the token `"abc"` yields `abc`. -/
theorem C5_witness :
    ('"' = '"' ∨ '"' = '\'' ∨ '"' = backquote) ∧
    2 ≤ quotedAbc.data.length ∧
    quotedAbc.data.head? = some '"' ∧
    quotedAbc.data.getLast? = some '"' ∧
    unquote quotedAbc = Except.ok abcStr := by
  refine ⟨Or.inl rfl, by decide, by decide, by decide, ?_⟩
  rw [C5_unquote_strips_matching_quotes quotedAbc '"' (Or.inl rfl) (by decide)
    (by decide) (by decide)]
  rfl

/-- C6: for every token that does not open with one of the three
recognized quote characters, and for every token of length strictly
less than two, unquoting is the identity. -/
theorem C6_unquote_identity (s : String)
    (h : s.data.length < 2 ∨
      ∀ q, s.data.head? = some q → ¬(q = '"' ∨ q = '\'' ∨ q = backquote)) :
    unquote s = Except.ok s := by
  have hcore : unquoteCore s.data = Except.ok s.data := by
    match hd : s.data with
    | [] => rfl
    | [c] => rfl
    | c0 :: c :: cs =>
      have hq : ¬(c0 = '"' ∨ c0 = '\'' ∨ c0 = backquote) := by
        rcases h with h | h
        · rw [hd] at h
          simp only [List.length_cons] at h
          exact False.elim (by omega)
        · exact h c0 (by rw [hd]; rfl)
      have hq' : c0 ≠ '"' ∧ c0 ≠ '\'' ∧ c0 ≠ backquote := by
        push_neg at hq
        exact hq
      show (if c0 ≠ '"' ∧ c0 ≠ '\'' ∧ c0 ≠ backquote then
          Except.ok (c0 :: c :: cs)
        else if List.getLast (c :: cs) (List.cons_ne_nil c cs) ≠ c0 then
          Except.error (UnquoteError.mk c0)
        else Except.ok ((c :: cs).dropLast)) = Except.ok (c0 :: c :: cs)
      rw [if_pos hq']
  unfold unquote
  rw [hcore]
  rfl

/-- C6 witness: the token `abc` opens with no quote character and
unquoting leaves it unchanged. -/
theorem C6_witness :
    (abcStr.data.length < 2 ∨
      ∀ q, abcStr.data.head? = some q →
        ¬(q = '"' ∨ q = '\'' ∨ q = backquote)) ∧
    unquote abcStr = Except.ok abcStr := by
  have hside : ∀ q, abcStr.data.head? = some q →
      ¬(q = '"' ∨ q = '\'' ∨ q = backquote) := by
    intro q hq
    have ha : abcStr.data.head? = some 'a' := by decide
    rw [ha] at hq
    have : q = 'a' := (Option.some.inj hq).symm
    subst this
    decide
  exact ⟨Or.inr hside, C6_unquote_identity abcStr (Or.inr hside)⟩

/-- C7: for every token of length at least two that opens with a
recognized quote character whose last character is not that same
character, unquoting returns an unterminated-quote error naming the
opening quote character. -/
theorem C7_unquote_unterminated (s : String) (q : Char)
    (hq : q = '"' ∨ q = '\'' ∨ q = backquote)
    (hlen : 2 ≤ s.data.length)
    (hfst : s.data.head? = some q)
    (hlst : s.data.getLast? ≠ some q) :
    unquote s = Except.error (UnquoteError.mk q) := by
  unfold unquote
  match hd : s.data with
  | [] => rw [hd] at hlen; simp at hlen
  | [c] => rw [hd] at hlen; simp at hlen
  | c0 :: c :: cs =>
    rw [hd] at hfst hlst
    have hc0 : c0 = q := by simpa using hfst
    subst hc0
    have hlast : List.getLast (c :: cs) (List.cons_ne_nil c cs) ≠ c0 := by
      intro he
      apply hlst
      rw [List.getLast?_cons_cons,
        List.getLast?_eq_getLast (c :: cs) (List.cons_ne_nil c cs), he]
    rw [unquoteCore_unterminated c0 c cs hq hlast]
    rfl

/-- C7 witness: unquoting the token `"abc` fails with an
unterminated-quote error naming the double quote. -/
theorem C7_witness :
    ('"' = '"' ∨ '"' = '\'' ∨ '"' = backquote) ∧
    2 ≤ quoteAbcOpen.data.length ∧
    quoteAbcOpen.data.head? = some '"' ∧
    quoteAbcOpen.data.getLast? ≠ some '"' ∧
    unquote quoteAbcOpen = Except.error (UnquoteError.mk '"') :=
  ⟨Or.inl rfl, by decide, by decide, by decide,
    C7_unquote_unterminated quoteAbcOpen '"' (Or.inl rfl) (by decide)
      (by decide) (by decide)⟩

/-- C8: every successful run of the compiler-wrapper probe, regardless
of the wrapper output, yields a record whose version field is the
sentinel string `unknown`. -/
theorem C8_version_unknown (o out : String) (lib : Library)
    (h : probe_via_oshcc o out = some lib) : lib.version = versionUnknown := by
  cases hs : shellSplit out with
  | none =>
    unfold probe_via_oshcc collectArgsWith at h
    rw [hs] at h
    exact absurd h (by simp)
  | some ts =>
    rw [probe_characterization o out ts hs] at h
    have := Option.some.inj h
    rw [← this]

/-- C8 witness: the probe on the plain line returns version
`unknown`. -/
theorem C8_witness :
    probe_via_oshcc oshccName line3 =
      some (Library.mk (some oshccName) [fooStr] [usrLib] [usrInclude]
        versionUnknown) ∧
    (Library.mk (some oshccName) [fooStr] [usrLib] [usrInclude]
      versionUnknown).version = versionUnknown :=
  ⟨by decide,
    C8_version_unknown oshccName line3
      (Library.mk (some oshccName) [fooStr] [usrLib] [usrInclude]
        versionUnknown) (by decide)⟩

/-- Helper: on a token whose first two characters are single-byte,
the byte slice from offset 2 is the drop of the first two characters,
and it cannot panic. -/
theorem sliceFromTwo_ascii (t : String) (a b : Char) (rest : List Char)
    (hdata : t.data = a :: b :: rest)
    (ha : a.utf8Size = 1) (hb : b.utf8Size = 1) :
    sliceFromTwo t = some (dropTwo t) := by
  have hcore : sliceFromTwoCore (a :: b :: rest) = some rest := by
    show (if a.utf8Size = 1 then
        (if b.utf8Size = 1 then some rest else none)
      else if a.utf8Size = 2 then some (b :: rest)
      else none) = some rest
    rw [if_pos ha, if_pos hb]
  unfold sliceFromTwo dropTwo
  rw [hdata, hcore]
  rfl

/-- Helper: when the byte-accurate collect loop succeeds, every word
starting with the marker contributed exactly its slice from byte
offset 2, and that slice did not panic. -/
theorem collectBytesLoop_mem (p t : String) (hp : starts_with t p = true) :
    ∀ (ts rs : List String), collectBytesLoop p ts = some rs →
      t ∈ ts → ∃ r, sliceFromTwo t = some r ∧ r ∈ rs := by
  intro ts
  induction ts with
  | nil =>
    intro rs _ ht
    exact absurd ht (List.not_mem_nil t)
  | cons hd tl ih =>
    intro rs h ht
    by_cases hph : starts_with hd p = true
    · simp only [collectBytesLoop] at h
      rw [if_pos hph] at h
      cases hsl : sliceFromTwo hd with
      | none => rw [hsl] at h; simp at h
      | some r =>
        rw [hsl] at h
        simp only [Option.some_bind] at h
        cases hrec : collectBytesLoop p tl with
        | none => rw [hrec] at h; simp at h
        | some rs2 =>
          rw [hrec] at h
          simp only [Option.map_some'] at h
          have hcons : r :: rs2 = rs := Option.some.inj h
          rcases List.mem_cons.mp ht with heq | htl
          · subst heq
            exact ⟨r, hsl, hcons ▸ List.mem_cons_self r rs2⟩
          · obtain ⟨r2, hr2, hm2⟩ := ih rs2 hrec htl
            exact ⟨r2, hr2, hcons ▸ List.mem_cons_of_mem r hm2⟩
    · simp only [collectBytesLoop] at h
      rw [if_neg hph] at h
      rcases List.mem_cons.mp ht with heq | htl
      · subst heq
        exact absurd hp hph
      · exact ih rs h htl

/-- C9, counterexample: the byte slice `arg[2..]` does not remove the
first two characters of an arbitrary matching token.  With the
one-character, two-byte marker `é` and the token `éx`, the collect
yields the entry `x` (one character, two bytes removed), not the
empty string that removing two characters would leave; and with the
one-byte marker `a` and the bare token `a`, the collect panics
instead of contributing an entry. -/
theorem C9_bytes_counterexample :
    starts_with accentedToken accentMarker = true ∧
    collect_args_bytes accentedToken accentMarker = some [xStr] ∧
    dropTwo accentedToken = emptyStr ∧
    xStr ≠ emptyStr ∧
    starts_with aTok aTok = true ∧
    collect_args_bytes aTok aTok = none := by decide

/-- C9, amended: every shell token starting with the given marker —
whatever the marker argument's length — contributes exactly its byte
slice from offset 2 whenever the collect completes without
panicking. -/
theorem C9_bytes_slice (p cmd : String) (ts : List String) (t : String)
    (rs : List String) (hs : shellSplit cmd = some ts) (ht : t ∈ ts)
    (hp : starts_with t p = true)
    (hc : collect_args_bytes cmd p = some rs) :
    ∃ r, sliceFromTwo t = some r ∧ r ∈ rs := by
  unfold collect_args_bytes at hc
  rw [hs] at hc
  rw [Option.some_bind] at hc
  exact collectBytesLoop_mem p t hp ts rs hc ht

/-- C9 witness: the bare marker token `-l` is itself a shell token
starting with the marker `-l`; its slice from byte offset 2 is the
empty string, which is its contributed entry. -/
theorem C9_bytes_witness :
    shellSplit flagLib = some [flagLib] ∧ flagLib ∈ [flagLib] ∧
    starts_with flagLib flagLib = true ∧
    collect_args_bytes flagLib flagLib = some [emptyStr] ∧
    sliceFromTwo flagLib = some emptyStr ∧
    emptyStr ∈ [emptyStr] := by
  obtain ⟨r, hr, hm⟩ := C9_bytes_slice flagLib flagLib [flagLib] flagLib
    [emptyStr] (by decide) (List.mem_singleton.mpr rfl) (by decide) (by decide)
  have h2 : sliceFromTwo flagLib = some emptyStr := by decide
  rw [h2] at hr
  have hre : r = emptyStr := (Option.some.inj hr).symm
  rw [hre] at hm
  exact ⟨by decide, List.mem_singleton.mpr rfl, by decide, by decide, h2, hm⟩

/-- C10: whenever the shell split of the wrapper output succeeds, each
of the three result lists is the left-to-right `filterMap` of the
token list: one entry per matching token in token order, duplicates
kept, and only tokens whose unquoting fails removed from the path
lists. -/
theorem C10_order_preserved (o out : String) (ts : List String)
    (h : shellSplit out = some ts) :
    probe_via_oshcc o out =
      some (Library.mk (some o) (ts.filterMap (markerEntry flagLib))
        (ts.filterMap (pathEntry flagLibDir))
        (ts.filterMap (pathEntry flagInclude)) versionUnknown) :=
  probe_characterization o out ts h

/-- C10 witness: on the plain line the three buckets are the
filterMaps of its three tokens. -/
theorem C10_witness :
    shellSplit line3 = some [tokLfoo, tokLdir, tokIdir] ∧
    probe_via_oshcc oshccName line3 =
      some (Library.mk (some oshccName)
        ([tokLfoo, tokLdir, tokIdir].filterMap (markerEntry flagLib))
        ([tokLfoo, tokLdir, tokIdir].filterMap (pathEntry flagLibDir))
        ([tokLfoo, tokLdir, tokIdir].filterMap (pathEntry flagInclude))
        versionUnknown) :=
  ⟨by decide,
    C10_order_preserved oshccName line3 [tokLfoo, tokLdir, tokIdir] (by decide)⟩

/-- C1, amended: when a token carrying the `-L` or `-I` marker begins
with a recognized quote character whose trailing character does not
match, the probe as a whole still succeeds; the offending token is
silently omitted from the resulting path lists (each path list is the
filterMap that drops every token whose unquoting fails). -/
theorem C1_probe_amended (o out : String) (ts : List String)
    (h : shellSplit out = some ts) :
    (probe_via_oshcc o out).isSome = true ∧
    Option.map Library.lib_paths (probe_via_oshcc o out) =
      some (ts.filterMap (pathEntry flagLibDir)) ∧
    Option.map Library.include_paths (probe_via_oshcc o out) =
      some (ts.filterMap (pathEntry flagInclude)) := by
  rw [probe_characterization o out ts h]
  exact ⟨rfl, rfl, rfl⟩

/-- C1 amended witness: on the line whose only token is `-L"abc` the
probe succeeds and the path lists drop the offending token. -/
theorem C1_probe_amended_witness :
    shellSplit lineBadQuote = some [tokBad] ∧
    ((probe_via_oshcc oshccName lineBadQuote).isSome = true ∧
     Option.map Library.lib_paths (probe_via_oshcc oshccName lineBadQuote) =
       some ([tokBad].filterMap (pathEntry flagLibDir)) ∧
     Option.map Library.include_paths (probe_via_oshcc oshccName lineBadQuote) =
       some ([tokBad].filterMap (pathEntry flagInclude))) :=
  ⟨by decide,
    C1_probe_amended oshccName lineBadQuote [tokBad] (by decide)⟩
